import Mathlib

/-!
Verification development for the H2Integrate/GreenHEART techno-economic
modeling toolkit.  Python numeric state is embedded shallowly: machine
floats are modelled as exact rationals, numpy arrays as lists of
rationals, Python dicts as insertion-ordered association lists, and the
Python heap of dict objects as a function from references to
association lists.  Division whose denominator can be zero is modelled
with IEEE semantics through the FVal type (finite, infinities, NaN);
fallible operations return Except values.
-/

set_option maxHeartbeats 1000000
set_option maxRecDepth 2000

/-- A value stored for a declared variable: either a scalar float or a
numpy vector, both modelled over the rationals. -/
inductive Value where
  | scalar (q : ℚ)
  | vector (qs : List ℚ)
deriving DecidableEq

/-- A Python dict from variable names to values, modelled as an
insertion-ordered association list with unique keys maintained by
dictSet. -/
abbrev Dict := List (String × Value)

/-- Lookup in a dict: the first binding of the key, as Python dict
indexing returns the unique binding of the key. -/
def dictGet : Dict → String → Option Value
  | [], _ => none
  | (k0, v) :: rest, k => if k0 = k then some v else dictGet rest k

/-- Python dict assignment d[k] = v: replace the first binding of the
key in place if present, otherwise append the new binding at the end. -/
def dictSet : Dict → String → Value → Dict
  | [], k, v => [(k, v)]
  | (k0, v0) :: rest, k, v =>
    if k0 = k then (k0, v) :: rest else (k0, v0) :: dictSet rest k v

/-- The keys of a dict in order. -/
def dictKeys (d : Dict) : List String :=
  d.map (fun kv => kv.1)

/-- One data row of a declaration table (the header row
["type","len","conn","unit","name"] is implicit in the field names).
The type column says whether the row is an input or an output, len is
the declared length, conn the shape-by-connection flag, unit the
physical unit string if any, and name the variable name. -/
structure DecRow where
  type : String
  len : Nat
  conn : Bool
  unit : Option String
  name : String
deriving DecidableEq

/-- A variable slot registered on the component by add_input or
add_output: its name, initial value, shape-by-connection flag and
unit. -/
structure Declared where
  name : String
  val : Value
  conn : Bool
  unit : Option String
deriving DecidableEq

/-- The Python heap restricted to dict objects: a map from object
references to dict contents.  It makes the distinction between
mutating a dict in place and rebinding an attribute to a new dict
observable, as it is in the source. -/
abbrev Store := Nat → Dict

/-- The mutable state of a MethanolBaseClass component: the raw
declaration table rows (dec_table_inputs, without the header row), a
reference into the heap for the values dict, the parsed dec_table, and
the lists of declared inputs and outputs built up by add_input and
add_output. -/
structure Component where
  dec_table_inputs : List DecRow
  valuesRef : Nat
  dec_table : List DecRow
  inputsDecl : List Declared
  outputsDecl : List Declared

/-- Merging add_values into an existing values dict by repeated
assignment values[key] = value, exactly the loop in
declare_from_table. -/
def mergeValues (d : Dict) (addValues : Dict) : Dict :=
  addValues.foldl (fun acc kv => dictSet acc kv.1 kv.2) d

/-- The initializing value for one declaration row: the value from the
merged values dict when the name is present, otherwise the scalar 0.0
when len is 1 and a zero vector of len elements otherwise, following
the body of the row loop in MethanolBaseClass.declare_from_table. -/
def rowValue (values : Dict) (r : DecRow) : Value :=
  match dictGet values r.name with
  | some v => v
  | none => if r.len = 1 then Value.scalar 0 else Value.vector (List.replicate r.len 0)

/-- Processing of a single declaration row: an "in" row is appended to
the declared inputs, an "out" row to the declared outputs, and any
other type column falls through both branches of the if/elif with no
effect and no error. -/
def declareStep (values : Dict) (c : Component) (r : DecRow) : Component :=
  let v := rowValue values r
  if r.type = "in" then
    { c with inputsDecl := c.inputsDecl ++ [⟨r.name, v, r.conn, r.unit⟩] }
  else if r.type = "out" then
    { c with outputsDecl := c.outputsDecl ++ [⟨r.name, v, r.conn, r.unit⟩] }
  else
    c

/-- MethanolBaseClass.declare_from_table: concatenates the optional
additional declaration rows onto dec_table_inputs, merges the optional
add_values dict into the values dict in place (the heap cell at
valuesRef is updated; self.values keeps pointing at the same object),
and then registers every row of the combined table as an input or an
output initialized per rowValue.  A None argument in the source is
modelled as the empty list, which the source treats identically.  The
function is total: the source path raises no exception. -/
def declare_from_table (σ : Store) (c : Component) (addRows : List DecRow)
    (addValues : Dict) : Store × Component :=
  let decTable := c.dec_table_inputs ++ addRows
  let values := mergeValues (σ c.valuesRef) addValues
  let σ2 : Store := fun n => if n = c.valuesRef then values else σ n
  let c1 : Component := { c with dec_table := decTable }
  (σ2, decTable.foldl (declareStep values) c1)

/-- Python exceptions that the embedded code can raise. -/
inductive PyErr where
  | notImplementedError
  | keyError
deriving DecidableEq

namespace MethanolPerformanceBaseClass

/-- MethanolPerformanceBaseClass.compute: the template stage raises
NotImplementedError for every input. -/
def compute (_inputs : Dict) : Except PyErr Dict :=
  Except.error PyErr.notImplementedError

end MethanolPerformanceBaseClass

namespace MethanolCostBaseClass

/-- MethanolCostBaseClass.compute: the template stage raises
NotImplementedError for every input. -/
def compute (_inputs : Dict) : Except PyErr Dict :=
  Except.error PyErr.notImplementedError

end MethanolCostBaseClass

namespace MethanolFinanceBaseClass

/-- MethanolFinanceBaseClass.compute: the template stage raises
NotImplementedError for every input. -/
def compute (_inputs : Dict) : Except PyErr Dict :=
  Except.error PyErr.notImplementedError

end MethanolFinanceBaseClass

/-- An IEEE-style float value: a finite value (modelled as an exact
rational), one of the two infinities, or NaN.  Numpy division of a
nonzero float by 0.0 produces an infinity and 0.0/0.0 produces NaN,
with only a RuntimeWarning and no exception. -/
inductive FVal where
  | finite (q : ℚ)
  | posInf
  | negInf
  | nan
deriving DecidableEq

/-- Whether a float value is an ordinary finite number. -/
def FVal.isFinite : FVal → Bool
  | finite _ => true
  | _ => false

/-- IEEE negation. -/
def fneg : FVal → FVal
  | .finite q => .finite (-q)
  | .posInf => .negInf
  | .negInf => .posInf
  | .nan => .nan

/-- IEEE addition restricted to the values reachable here: finite plus
finite is exact, an infinity absorbs finite values, opposite
infinities give NaN, and NaN propagates. -/
def fadd : FVal → FVal → FVal
  | .nan, _ => .nan
  | _, .nan => .nan
  | .finite a, .finite b => .finite (a + b)
  | .posInf, .negInf => .nan
  | .negInf, .posInf => .nan
  | .posInf, _ => .posInf
  | _, .posInf => .posInf
  | .negInf, _ => .negInf
  | _, .negInf => .negInf

/-- IEEE subtraction, as addition of the negation. -/
def fsub (a b : FVal) : FVal :=
  fadd a (fneg b)

/-- IEEE division of two finite values: exact when the denominator is
nonzero; division by (positive) zero gives an infinity by the sign of
the numerator, and 0/0 gives NaN. -/
def fdiv (a b : ℚ) : FVal :=
  if b = 0 then
    if 0 < a then FVal.posInf else if a < 0 then FVal.negInf else FVal.nan
  else
    FVal.finite (a / b)

/-- The inputs consumed by the SMR methanol Finance stage
(Finance.run_finance_model in simulation/technologies/methanol/smr.py):
cost-stage outputs, financing parameters and the hourly methanol
production array. -/
structure FinanceInputs where
  CapEx : ℚ
  Fixed_OpEx : ℚ
  Variable_OpEx : ℚ
  discount_rate : ℚ
  tasc_toc_multiplier : ℚ
  methanol_production : List ℚ
  meoh_syn_cat_cost : ℚ
  meoh_atr_cat_cost : ℚ
  lng_cost : ℚ
  elec_revenue : ℚ

/-- The outputs dict written by the SMR methanol Finance stage. -/
structure FinanceOutputs where
  LCOM_meoh_capex : FVal
  LCOM_meoh_fopex : FVal
  LCOM_meoh_syn_cat : FVal
  LCOM_meoh_atr_cat : FVal
  LCOM_meoh_vopex : FVal
  LCOM_ng : FVal
  LCOM_elec : FVal
  LCOM_meoh : FVal
  LCOM : FVal
deriving DecidableEq

namespace Finance

/-- Finance.run_finance_model of the SMR methanol plant: every
levelized-cost share divides an annual cost by np.sum of the hourly
production array, with no zero-production check; LCOM_meoh_vopex is
corrected downward by the catalyst shares after the fact, and LCOM is
assembled from the shares.  The identical arithmetic appears in
SMRMethanolPlantFinanceModel.compute with fixed_charge_rate in place
of discount_rate. -/
def run_finance_model (inputs : FinanceInputs) : FinanceOutputs :=
  let s := inputs.methanol_production.sum
  let lcom_capex := fdiv (inputs.CapEx * inputs.discount_rate * inputs.tasc_toc_multiplier) s
  let lcom_fopex := fdiv inputs.Fixed_OpEx s
  let lcom_vopex := fdiv inputs.Variable_OpEx s
  let lcom_meoh_syn_cat := fdiv inputs.meoh_syn_cat_cost s
  let lcom_meoh_atr_cat := fdiv inputs.meoh_atr_cat_cost s
  let lcom_vopex2 := fsub lcom_vopex (fadd lcom_meoh_syn_cat lcom_meoh_atr_cat)
  let lcom_ng := fdiv inputs.lng_cost s
  let lcom_elec := fdiv (-inputs.elec_revenue) s
  let lcom_meoh :=
    fadd (fadd (fadd (fadd lcom_capex lcom_fopex) lcom_vopex2) lcom_meoh_syn_cat)
      lcom_meoh_atr_cat
  let lcom := fadd (fadd lcom_meoh lcom_ng) lcom_elec
  { LCOM_meoh_capex := lcom_capex
    LCOM_meoh_fopex := lcom_fopex
    LCOM_meoh_syn_cat := lcom_meoh_syn_cat
    LCOM_meoh_atr_cat := lcom_meoh_atr_cat
    LCOM_meoh_vopex := lcom_vopex2
    LCOM_ng := lcom_ng
    LCOM_elec := lcom_elec
    LCOM_meoh := lcom_meoh
    LCOM := lcom }

end Finance

/-- The inputs consumed by NaturalGeoH2FinanceModel.compute: the well
lifetime in years (an integer in the source), the cost-stage outputs
and the hourly hydrogen array. -/
structure GeoFinanceInputs where
  well_lifetime : Nat
  CapEx : ℚ
  Fixed_OpEx : ℚ
  Variable_OpEx : ℚ
  hydrogen : List ℚ

/-- The outputs written by NaturalGeoH2FinanceModel.compute. -/
structure GeoFinanceOutputs where
  LCOH : FVal
  LCOH_capex : FVal
  LCOH_fopex : FVal
  LCOH_vopex : FVal
deriving DecidableEq

namespace NaturalGeoH2FinanceModel

/-- NaturalGeoH2FinanceModel.compute: derives a fixed charge rate from
the effective tax rate and after-tax WACC constants of NETL-PUB-22580
and then levelizes (CapEx * fcr + Fixed_OpEx) over np.sum of the
hydrogen array with no zero-production check.  np.linspace(1,
lifetime, lifetime) is the list 1..lifetime.  The fixed-charge-rate
arithmetic is carried out over the rationals; it matches the float
computation exactly (up to rounding, which the rational embedding
idealizes away) for lifetime at least 1, where all its denominators
are nonzero; the production division is modelled with IEEE
semantics. -/
def compute (inputs : GeoFinanceInputs) : GeoFinanceOutputs :=
  let lifetime := inputs.well_lifetime
  let etr : ℚ := 2574 / 10000
  let atwacc : ℚ := 473 / 10000
  let dep_n : ℚ := 1 / (lifetime : ℚ)
  let crf : ℚ := atwacc * (1 + atwacc) ^ lifetime / ((1 + atwacc) ^ lifetime - 1)
  let dep : ℚ :=
    crf * (((List.range lifetime).map (fun k => dep_n / (1 + atwacc) ^ (k + 1))).sum)
  let fcr : ℚ := crf / (1 - etr) - etr * dep / (1 - etr)
  let production := inputs.hydrogen.sum
  { LCOH := fadd (fdiv (inputs.CapEx * fcr + inputs.Fixed_OpEx) production)
      (FVal.finite inputs.Variable_OpEx)
    LCOH_capex := fdiv (inputs.CapEx * fcr) production
    LCOH_fopex := fdiv inputs.Fixed_OpEx production
    LCOH_vopex := FVal.finite inputs.Variable_OpEx }

end NaturalGeoH2FinanceModel

/-- run_performance_model of greenheart/simulation/technologies/methanol/smr.py:
the annual methanol production in kg/year is the lng supply divided by
the lng-to-methanol mass ratio, returned as a single scalar. -/
def gh_run_performance_model (lng lng_meoh_ratio : ℚ) : ℚ :=
  lng / lng_meoh_ratio

/-- The inputs consumed by the SMR methanol Performance stage
(Performance.run_performance_model in
h2integrate/simulation/technologies/methanol/smr.py). -/
structure PerformanceInputs where
  plant_capacity_kgpy : ℚ
  capacity_factor : ℚ
  co2e_emit_ratio : ℚ
  h2o_consume_ratio : ℚ
  h2_consume_ratio : ℚ
  co2_consume_ratio : ℚ
  elec_consume_ratio : ℚ
  meoh_atr_cat_consume_ratio : ℚ
  meoh_syn_cat_consume_ratio : ℚ
  lng_consume_ratio : ℚ
  elec_produce_ratio : ℚ

/-- The outputs of the SMR methanol Performance stage: hourly arrays
over the 8760-hour year plus scalar annual catalyst consumptions. -/
structure PerformanceOutputs where
  methanol_production : List ℚ
  co2_consumption : List ℚ
  h2o_consumption : List ℚ
  h2_consumption : List ℚ
  co2e_emissions : List ℚ
  elec_consumption : List ℚ
  meoh_atr_cat_consumption : ℚ
  meoh_syn_cat_consumption : ℚ
  lng_consumption : List ℚ
  elec_production : List ℚ
deriving DecidableEq

namespace Performance

/-- Performance.run_performance_model of the SMR methanol plant:
hourly methanol production is plant_capacity_kgpy * capacity_factor /
8760 broadcast over np.ones(8760); every other flow is that array (or
its sum, for the catalysts) scaled by the corresponding ratio.  The
lng input plays no role in the methanol output. -/
def run_performance_model (inputs : PerformanceInputs) : PerformanceOutputs :=
  let meoh_kgph :=
    List.replicate 8760 (inputs.plant_capacity_kgpy * inputs.capacity_factor / 8760)
  { methanol_production := meoh_kgph
    co2_consumption := meoh_kgph.map (fun q => q * inputs.co2_consume_ratio)
    h2o_consumption := meoh_kgph.map (fun q => q * inputs.h2o_consume_ratio)
    h2_consumption := meoh_kgph.map (fun q => q * inputs.h2_consume_ratio)
    co2e_emissions := meoh_kgph.map (fun q => q * inputs.co2e_emit_ratio)
    elec_consumption := meoh_kgph.map (fun q => q * inputs.elec_consume_ratio)
    meoh_atr_cat_consumption := meoh_kgph.sum * inputs.meoh_atr_cat_consume_ratio
    meoh_syn_cat_consumption := meoh_kgph.sum * inputs.meoh_syn_cat_consume_ratio
    lng_consumption := meoh_kgph.map (fun q => q * inputs.lng_consume_ratio)
    elec_production := meoh_kgph.map (fun q => q * inputs.elec_produce_ratio) }

end Performance

/-- Lookup of a year in a price-index table (the df.loc[year, column]
access): the index value when the year is a row of the table. -/
def lookupYear (table : List (Int × ℚ)) (y : Int) : Option ℚ :=
  (table.find? (fun p => p.1 == y)).map (fun p => p.2)

/-- inflate_cpi of greenheart/tools/inflation/inflate.py: multiplies
the cost by the ratio of the CPI index at the output year to the CPI
index at the input year.  The pandas loc access raises KeyError (a
LookupError) when a year is absent; the output year is looked up
first, as in the source expression.  The CSV contents are external
data, so the table is a parameter. -/
def inflate_cpi (cpiTable : List (Int × ℚ)) (costs : ℚ) (inYear outYear : Int) :
    Except PyErr ℚ :=
  match lookupYear cpiTable outYear with
  | none => Except.error PyErr.keyError
  | some iOut =>
    match lookupYear cpiTable inYear with
    | none => Except.error PyErr.keyError
    | some iIn => Except.ok (costs * (iOut / iIn))

/-- inflate_cepci of greenheart/tools/inflation/inflate.py: identical
to inflate_cpi but reading the CEPCI index table. -/
def inflate_cepci (cepciTable : List (Int × ℚ)) (costs : ℚ) (inYear outYear : Int) :
    Except PyErr ℚ :=
  match lookupYear cepciTable outYear with
  | none => Except.error PyErr.keyError
  | some iOut =>
    match lookupYear cepciTable inYear with
    | none => Except.error PyErr.keyError
    | some iIn => Except.ok (costs * (iOut / iIn))

/-- One capital line item of the Rosner iron cost model
(cost_model.py main): capital_costs[item] = lin_coeff *
plant_capacity_mtpy ** exp_coeff.  No inflation factor is applied at
this point; the CEPCI constants 596.2 and 708.8 appear only in a
commented-out block of the source. -/
noncomputable def rosnerCapitalItemCost (linCoeff expCoeff plantCapacityMtpy : ℝ) : ℝ :=
  linCoeff * plantCapacityMtpy ^ expCoeff

/-- The capital-cost table of the Rosner iron cost model: every
(name, lin, exp) coefficient row yields the line item
lin * capacity ** exp, and total_plant_cost sums them. -/
noncomputable def rosnerCapitalCosts (coeffs : List (String × ℝ × ℝ))
    (plantCapacityMtpy : ℝ) : List (String × ℝ) :=
  coeffs.map (fun t => (t.1, rosnerCapitalItemCost t.2.1 t.2.2 plantCapacityMtpy))

/-- total_plant_cost of the Rosner iron cost model: the sum of the
capital line items. -/
noncomputable def rosnerTotalPlantCost (coeffs : List (String × ℝ × ℝ))
    (plantCapacityMtpy : ℝ) : ℝ :=
  ((rosnerCapitalCosts coeffs plantCapacityMtpy).map (fun t => t.2)).sum

/-- A concrete heap with one dict object holding a single binding. -/
def sampleStore : Store :=
  fun _ => [(("a" : String), Value.scalar 1)]

/-- A concrete input declaration row named x. -/
def rowX : DecRow :=
  { type := "in", len := 1, conn := false, unit := none, name := "x" }

/-- A concrete declaration row whose type column is neither in nor
out. -/
def rowOther : DecRow :=
  { type := "misc", len := 1, conn := false, unit := none, name := "y" }

/-- A concrete component whose declaration table holds the single row
rowX and whose values dict lives at heap reference 0. -/
def sampleComponent : Component :=
  { dec_table_inputs := [rowX], valuesRef := 0, dec_table := [],
    inputsDecl := [], outputsDecl := [] }

/-- A concrete add_values dict overriding x and adding b. -/
def sampleAddValues : Dict :=
  [(("x" : String), Value.scalar 5), (("b" : String), Value.scalar 3)]

/-- A concrete component on which nothing is declared, used to watch a
single row be processed. -/
def emptyComponent : Component :=
  { dec_table_inputs := [], valuesRef := 0, dec_table := [],
    inputsDecl := [], outputsDecl := [] }

/-- Concrete SMR Finance inputs with two production hours of 1 kg/h
and unit costs, giving nonzero summed production. -/
def financeSample : FinanceInputs :=
  { CapEx := 1, Fixed_OpEx := 1, Variable_OpEx := 1, discount_rate := 1,
    tasc_toc_multiplier := 1, methanol_production := [1, 1],
    meoh_syn_cat_cost := 1, meoh_atr_cat_cost := 1, lng_cost := 1,
    elec_revenue := 1 }

/-- Concrete SMR Finance inputs whose hourly production array is 8760
zeros, so summed annual production is zero. -/
def zeroFinanceInputs : FinanceInputs :=
  { CapEx := 1, Fixed_OpEx := 1, Variable_OpEx := 1, discount_rate := 1,
    tasc_toc_multiplier := 1, methanol_production := List.replicate 8760 0,
    meoh_syn_cat_cost := 1, meoh_atr_cat_cost := 1, lng_cost := 1,
    elec_revenue := 1 }

/-- Concrete geologic-hydrogen Finance inputs whose hourly hydrogen
array is 8760 zeros, so summed annual production is zero. -/
def zeroGeoFinanceInputs : GeoFinanceInputs :=
  { well_lifetime := 1, CapEx := 1, Fixed_OpEx := 1, Variable_OpEx := 1,
    hydrogen := List.replicate 8760 0 }

/-- The SMR Performance inputs of the end-to-end methanol scenario:
the default plant capacity (1e8 kg/yr) and capacity factor (0.85) of
the performance base class together with the SMR values dict,
including lng_consume_ratio = 1.61561859 kg/kg. -/
def smrPerfSample : PerformanceInputs :=
  { plant_capacity_kgpy := 100000000, capacity_factor := 85 / 100,
    co2e_emit_ratio := 113442 / 100000,
    h2o_consume_ratio := 2669877132 / 1000000000, h2_consume_ratio := 0,
    co2_consume_ratio := 0, elec_consume_ratio := 0,
    meoh_atr_cat_consume_ratio := 13078433938 / 10000000000000000,
    meoh_syn_cat_consume_ratio := 36322492251 / 100000000000000000,
    lng_consume_ratio := 161561859 / 100000000,
    elec_produce_ratio := 338415339 / 1000000000 }

/-- A concrete two-year price-index table. -/
def sampleIndexTable : List (Int × ℚ) :=
  [(2020, 100), (2024, 125)]

/-- Lookup after assignment of the same key yields the assigned
value. -/
theorem dictGet_dictSet_self (d : Dict) (k : String) (v : Value) :
    dictGet (dictSet d k v) k = some v := by
  induction d with
  | nil => simp [dictSet, dictGet]
  | cons kv rest ih =>
    obtain ⟨k0, v0⟩ := kv
    by_cases h : k0 = k
    · simp [dictSet, dictGet, h]
    · simp [dictSet, dictGet, h, ih]

/-- Lookup of a different key is unchanged by an assignment. -/
theorem dictGet_dictSet_ne (d : Dict) (k k2 : String) (v : Value) (h : k2 ≠ k) :
    dictGet (dictSet d k v) k2 = dictGet d k2 := by
  induction d with
  | nil => simp [dictSet, dictGet, Ne.symm h]
  | cons kv rest ih =>
    obtain ⟨k0, v0⟩ := kv
    by_cases h0 : k0 = k
    · subst h0
      simp [dictSet, dictGet, Ne.symm h]
    · simp only [dictSet, if_neg h0]
      by_cases h2 : k0 = k2
      · simp [dictGet, h2]
      · simp [dictGet, h2, ih]

/-- Merging an empty add_values dict is the identity. -/
theorem mergeValues_nil (d : Dict) : mergeValues d [] = d :=
  rfl

/-- Merging unfolds one assignment at a time. -/
theorem mergeValues_cons (d : Dict) (k : String) (v : Value) (rest : Dict) :
    mergeValues d ((k, v) :: rest) = mergeValues (dictSet d k v) rest :=
  rfl

/-- A key that does not occur in add_values is looked up in the
original dict after the merge. -/
theorem dictGet_mergeValues_not_mem (addValues : Dict) (d : Dict) (k : String)
    (h : k ∉ dictKeys addValues) :
    dictGet (mergeValues d addValues) k = dictGet d k := by
  induction addValues generalizing d with
  | nil => rfl
  | cons kv rest ih =>
    obtain ⟨k0, v0⟩ := kv
    simp only [dictKeys, List.map_cons, List.mem_cons, not_or] at h
    rw [mergeValues_cons, ih (dictSet d k0 v0) h.2, dictGet_dictSet_ne d k0 k v0 h.1]

/-- A key bound in add_values (whose keys are unique, as for a Python
dict) is looked up in add_values after the merge. -/
theorem dictGet_mergeValues_mem (addValues : Dict) (d : Dict) (k : String) (v : Value)
    (hnd : (dictKeys addValues).Nodup) (h : dictGet addValues k = some v) :
    dictGet (mergeValues d addValues) k = some v := by
  induction addValues generalizing d with
  | nil => simp [dictGet] at h
  | cons kv rest ih =>
    obtain ⟨k0, v0⟩ := kv
    simp only [dictKeys, List.map_cons, List.nodup_cons] at hnd
    by_cases h0 : k0 = k
    · subst h0
      have hv : v0 = v := by simpa [dictGet] using h
      subst hv
      rw [mergeValues_cons,
        dictGet_mergeValues_not_mem rest (dictSet d k0 v0) k0 hnd.1,
        dictGet_dictSet_self]
    · simp only [dictGet, if_neg h0] at h
      rw [mergeValues_cons]
      exact ih (dictSet d k0 v0) hnd.2 h

/-- Folding declareStep over rows appends, to the declared inputs,
exactly the rows whose type column is "in", initialized per
rowValue. -/
theorem foldl_declareStep_inputsDecl (values : Dict) (rows : List DecRow) (c : Component) :
    (rows.foldl (declareStep values) c).inputsDecl =
      c.inputsDecl ++ (rows.filter (fun r => r.type == "in")).map
        (fun r => Declared.mk r.name (rowValue values r) r.conn r.unit) := by
  induction rows generalizing c with
  | nil => simp
  | cons r rows ih =>
    rw [List.foldl_cons, ih]
    by_cases h1 : r.type = "in"
    · simp [declareStep, h1, List.filter_cons]
    · by_cases h2 : r.type = "out"
      · simp [declareStep, h1, h2, List.filter_cons]
      · simp [declareStep, h1, h2, List.filter_cons]

/-- Folding declareStep over rows appends, to the declared outputs,
exactly the rows whose type column is "out", initialized per
rowValue. -/
theorem foldl_declareStep_outputsDecl (values : Dict) (rows : List DecRow) (c : Component) :
    (rows.foldl (declareStep values) c).outputsDecl =
      c.outputsDecl ++ (rows.filter (fun r => r.type == "out")).map
        (fun r => Declared.mk r.name (rowValue values r) r.conn r.unit) := by
  induction rows generalizing c with
  | nil => simp
  | cons r rows ih =>
    rw [List.foldl_cons, ih]
    by_cases h1 : r.type = "in"
    · have h2 : ¬ r.type = "out" := by simp [h1]
      simp [declareStep, h1, h2, List.filter_cons]
    · by_cases h2 : r.type = "out"
      · simp [declareStep, h1, h2, List.filter_cons]
      · simp [declareStep, h1, h2, List.filter_cons]

/-- Folding declareStep never touches the values reference. -/
theorem foldl_declareStep_valuesRef (values : Dict) (rows : List DecRow) (c : Component) :
    (rows.foldl (declareStep values) c).valuesRef = c.valuesRef := by
  induction rows generalizing c with
  | nil => rfl
  | cons r rows ih =>
    rw [List.foldl_cons, ih]
    by_cases h1 : r.type = "in"
    · simp [declareStep, h1]
    · by_cases h2 : r.type = "out"
      · simp [declareStep, h1, h2]
      · simp [declareStep, h1, h2]

/-- Addition of finite floats is exact rational addition. -/
@[simp] theorem fadd_finite (a b : ℚ) :
    fadd (FVal.finite a) (FVal.finite b) = FVal.finite (a + b) :=
  rfl

/-- Negation of a finite float is exact rational negation. -/
@[simp] theorem fneg_finite (a : ℚ) :
    fneg (FVal.finite a) = FVal.finite (-a) :=
  rfl

/-- Subtraction of finite floats is exact rational subtraction. -/
@[simp] theorem fsub_finite (a b : ℚ) :
    fsub (FVal.finite a) (FVal.finite b) = FVal.finite (a - b) := by
  simp [fsub, sub_eq_add_neg]

/-- Division by a nonzero denominator is exact rational division. -/
theorem fdiv_ne (a b : ℚ) (h : b ≠ 0) :
    fdiv a b = FVal.finite (a / b) := by
  simp [fdiv, h]

/-- C1: for every row of the declaration table processed by
declare_from_table, the initializing value is the override from the
merged value mapping when the row name is present there, otherwise the
scalar 0.0 when len is 1 and a zero vector of exactly len elements
when len exceeds 1; a row typed "in" is registered among the declared
inputs and a row typed "out" among the declared outputs. -/
theorem declare_from_table_row_semantics
    (σ : Store) (c : Component) (addRows : List DecRow) (addValues : Dict)
    (r : DecRow) (hr : r ∈ c.dec_table_inputs ++ addRows) :
    (∀ v, dictGet (mergeValues (σ c.valuesRef) addValues) r.name = some v →
      rowValue (mergeValues (σ c.valuesRef) addValues) r = v) ∧
    (dictGet (mergeValues (σ c.valuesRef) addValues) r.name = none →
      (r.len = 1 →
        rowValue (mergeValues (σ c.valuesRef) addValues) r = Value.scalar 0) ∧
      (1 < r.len →
        rowValue (mergeValues (σ c.valuesRef) addValues) r =
          Value.vector (List.replicate r.len 0))) ∧
    (r.type = "in" →
      Declared.mk r.name (rowValue (mergeValues (σ c.valuesRef) addValues) r)
          r.conn r.unit ∈
        (declare_from_table σ c addRows addValues).2.inputsDecl) ∧
    (r.type = "out" →
      Declared.mk r.name (rowValue (mergeValues (σ c.valuesRef) addValues) r)
          r.conn r.unit ∈
        (declare_from_table σ c addRows addValues).2.outputsDecl) := by
  refine ⟨?_, ?_, ?_, ?_⟩
  · intro v hv
    simp [rowValue, hv]
  · intro hv
    refine ⟨fun h1 => ?_, fun h2 => ?_⟩
    · simp [rowValue, hv, h1]
    · have hne : r.len ≠ 1 := by omega
      simp [rowValue, hv, hne]
  · intro ht
    simp only [declare_from_table]
    rw [foldl_declareStep_inputsDecl]
    refine List.mem_append_right _ ?_
    refine List.mem_map.mpr ⟨r, ?_, rfl⟩
    exact List.mem_filter.mpr ⟨hr, by simp [ht]⟩
  · intro ht
    simp only [declare_from_table]
    rw [foldl_declareStep_outputsDecl]
    refine List.mem_append_right _ ?_
    refine List.mem_map.mpr ⟨r, ?_, rfl⟩
    exact List.mem_filter.mpr ⟨hr, by simp [ht]⟩

/-- Witness for C1 at concrete inputs: the row named x, with an
override of 5 in add_values, is declared as an input initialized to
5. -/
theorem declare_from_table_row_semantics_witness :
    rowX ∈ sampleComponent.dec_table_inputs ++ ([] : List DecRow) ∧
    Declared.mk (("x" : String)) (Value.scalar 5) false none ∈
      (declare_from_table sampleStore sampleComponent [] sampleAddValues).2.inputsDecl := by
  refine ⟨by decide, ?_⟩
  have h := (declare_from_table_row_semantics sampleStore sampleComponent []
    sampleAddValues rowX (by decide)).2.2.1 rfl
  have e : Declared.mk (("x" : String)) (Value.scalar 5) false none =
      Declared.mk rowX.name
        (rowValue (mergeValues (sampleStore sampleComponent.valuesRef) sampleAddValues)
          rowX) rowX.conn rowX.unit := by decide
  rw [e]
  exact h

/-- C9: declare_from_table merges a non-empty add_values mapping into
the values dict of the component in place: the component keeps the
same dict reference, the heap cell at that reference now holds the
merge, every key bound in add_values ends with the add_values entry,
every other key is retained, and no other heap object changes. -/
theorem declare_values_merge_in_place
    (σ : Store) (c : Component) (addRows : List DecRow) (addValues : Dict)
    (hnd : (dictKeys addValues).Nodup) :
    (declare_from_table σ c addRows addValues).2.valuesRef = c.valuesRef ∧
    (declare_from_table σ c addRows addValues).1 c.valuesRef =
      mergeValues (σ c.valuesRef) addValues ∧
    (∀ k v, dictGet addValues k = some v →
      dictGet ((declare_from_table σ c addRows addValues).1 c.valuesRef) k = some v) ∧
    (∀ k, k ∉ dictKeys addValues →
      dictGet ((declare_from_table σ c addRows addValues).1 c.valuesRef) k =
        dictGet (σ c.valuesRef) k) ∧
    (∀ n, n ≠ c.valuesRef → (declare_from_table σ c addRows addValues).1 n = σ n) := by
  refine ⟨?_, ?_, ?_, ?_, ?_⟩
  · simp only [declare_from_table]
    rw [foldl_declareStep_valuesRef]
  · simp [declare_from_table]
  · intro k v hk
    simp only [declare_from_table, if_pos rfl]
    exact dictGet_mergeValues_mem addValues (σ c.valuesRef) k v hnd hk
  · intro k hk
    simp only [declare_from_table, if_pos rfl]
    exact dictGet_mergeValues_not_mem addValues (σ c.valuesRef) k hk
  · intro n hn
    simp [declare_from_table, hn]

/-- Witness for C9 at concrete inputs: after the call, the stored
values dict of the component holds the entry b added by
add_values. -/
theorem declare_values_merge_in_place_witness :
    (dictKeys sampleAddValues).Nodup ∧
    dictGet ((declare_from_table sampleStore sampleComponent [] sampleAddValues).1
        (declare_from_table sampleStore sampleComponent [] sampleAddValues).2.valuesRef)
      (("b" : String)) = some (Value.scalar 3) := by
  refine ⟨by decide, ?_⟩
  have h := declare_values_merge_in_place sampleStore sampleComponent []
    sampleAddValues (by decide)
  rw [h.1]
  exact h.2.2.1 (("b" : String)) (Value.scalar 3) (by decide)

/-- C10: the declared inputs are exactly the rows typed "in" and the
declared outputs exactly the rows typed "out"; a row with any other
type column leaves the component unchanged, with no variable
registered and no error raised (the embedded function is total). -/
theorem declare_skips_unknown_row_types
    (σ : Store) (c : Component) (addRows : List DecRow) (addValues : Dict) :
    (declare_from_table σ c addRows addValues).2.inputsDecl =
      c.inputsDecl ++ ((c.dec_table_inputs ++ addRows).filter
        (fun r => r.type == "in")).map
        (fun r => Declared.mk r.name
          (rowValue (mergeValues (σ c.valuesRef) addValues) r) r.conn r.unit) ∧
    (declare_from_table σ c addRows addValues).2.outputsDecl =
      c.outputsDecl ++ ((c.dec_table_inputs ++ addRows).filter
        (fun r => r.type == "out")).map
        (fun r => Declared.mk r.name
          (rowValue (mergeValues (σ c.valuesRef) addValues) r) r.conn r.unit) ∧
    (∀ (values : Dict) (c2 : Component) (r : DecRow),
      ¬ r.type = "in" → ¬ r.type = "out" → declareStep values c2 r = c2) := by
  refine ⟨?_, ?_, ?_⟩
  · simp only [declare_from_table]
    rw [foldl_declareStep_inputsDecl]
  · simp only [declare_from_table]
    rw [foldl_declareStep_outputsDecl]
  · intro values c2 r h1 h2
    simp [declareStep, h1, h2]

/-- Witness for C10 at concrete inputs: a row typed misc is processed
with no effect. -/
theorem declare_skips_unknown_row_types_witness :
    ¬ rowOther.type = "in" ∧ ¬ rowOther.type = "out" ∧
    declareStep [] emptyComponent rowOther = emptyComponent := by
  refine ⟨by decide, by decide, ?_⟩
  exact (declare_skips_unknown_row_types sampleStore emptyComponent [] []).2.2 []
    emptyComponent rowOther (by decide) (by decide)

/-- C8: invoking compute directly on a base/template stage class
raises NotImplementedError for every input, for the methanol
Performance, Cost and Finance base classes. -/
theorem base_compute_not_implemented (inputs : Dict) :
    MethanolPerformanceBaseClass.compute inputs =
      Except.error PyErr.notImplementedError ∧
    MethanolCostBaseClass.compute inputs =
      Except.error PyErr.notImplementedError ∧
    MethanolFinanceBaseClass.compute inputs =
      Except.error PyErr.notImplementedError :=
  ⟨rfl, rfl, rfl⟩

/-- C3: with nonzero summed annual production, the total LCOM equals
the sum of the seven named levelized-cost shares LCOM_meoh_capex,
LCOM_meoh_fopex, LCOM_meoh_vopex, LCOM_meoh_syn_cat,
LCOM_meoh_atr_cat, LCOM_ng and LCOM_elec, exactly in rational
arithmetic, LCOM_elec being the electricity credit entering as a
negative share. -/
theorem lcom_decomposition_sums_to_total (i : FinanceInputs)
    (h : i.methanol_production.sum ≠ 0) :
    (Finance.run_finance_model i).LCOM =
      List.foldl fadd (FVal.finite 0)
        [(Finance.run_finance_model i).LCOM_meoh_capex,
         (Finance.run_finance_model i).LCOM_meoh_fopex,
         (Finance.run_finance_model i).LCOM_meoh_vopex,
         (Finance.run_finance_model i).LCOM_meoh_syn_cat,
         (Finance.run_finance_model i).LCOM_meoh_atr_cat,
         (Finance.run_finance_model i).LCOM_ng,
         (Finance.run_finance_model i).LCOM_elec] := by
  have hrw : ∀ a : ℚ, fdiv a i.methanol_production.sum =
      FVal.finite (a / i.methanol_production.sum) :=
    fun a => fdiv_ne a _ h
  simp only [Finance.run_finance_model, hrw, fadd_finite, fsub_finite, List.foldl,
    FVal.finite.injEq]
  ring

/-- Witness for C3 at concrete inputs with two production hours of
1 kg/h. -/
theorem lcom_decomposition_sums_to_total_witness :
    financeSample.methanol_production.sum ≠ 0 ∧
    (Finance.run_finance_model financeSample).LCOM =
      List.foldl fadd (FVal.finite 0)
        [(Finance.run_finance_model financeSample).LCOM_meoh_capex,
         (Finance.run_finance_model financeSample).LCOM_meoh_fopex,
         (Finance.run_finance_model financeSample).LCOM_meoh_vopex,
         (Finance.run_finance_model financeSample).LCOM_meoh_syn_cat,
         (Finance.run_finance_model financeSample).LCOM_meoh_atr_cat,
         (Finance.run_finance_model financeSample).LCOM_ng,
         (Finance.run_finance_model financeSample).LCOM_elec] :=
  ⟨by norm_num [financeSample, List.sum_cons, List.sum_nil],
   lcom_decomposition_sums_to_total financeSample
     (by norm_num [financeSample, List.sum_cons, List.sum_nil])⟩

/-- A division by a zero denominator never yields a finite float. -/
theorem fdiv_zero_not_finite (a : ℚ) : (fdiv a 0).isFinite = false := by
  simp only [fdiv, if_pos rfl]
  split_ifs <;> rfl

/-- Adding anything to a non-finite float never yields a finite
float. -/
theorem fadd_not_finite_left (x y : FVal) (hx : x.isFinite = false) :
    (fadd x y).isFinite = false := by
  cases x <;> cases y <;> simp_all [fadd, FVal.isFinite]

/-- At zero summed production the SMR finance model produces
non-finite LCOM and LCOM_meoh_capex values. -/
theorem run_finance_model_zero_sum (i : FinanceInputs)
    (h : i.methanol_production.sum = 0) :
    (Finance.run_finance_model i).LCOM.isFinite = false ∧
    (Finance.run_finance_model i).LCOM_meoh_capex.isFinite = false := by
  constructor
  · simp only [Finance.run_finance_model, h]
    repeat
      first
      | exact fdiv_zero_not_finite _
      | apply fadd_not_finite_left
  · simp only [Finance.run_finance_model, h]
    exact fdiv_zero_not_finite _

/-- At zero summed production the geologic hydrogen finance model
produces a non-finite LCOH value. -/
theorem geo_compute_zero_sum (i : GeoFinanceInputs) (h : i.hydrogen.sum = 0) :
    (NaturalGeoH2FinanceModel.compute i).LCOH.isFinite = false := by
  simp only [NaturalGeoH2FinanceModel.compute, h]
  apply fadd_not_finite_left
  exact fdiv_zero_not_finite _

/-- C2: at zero summed production the Finance stages raise nothing
and their levelized-cost divisions produce non-finite floats: at the
all-zero production input, LCOM and LCOM_meoh_capex of the SMR
methanol finance model and LCOH of the natural geologic hydrogen
finance model are not finite numbers (infinity or NaN). -/
theorem finance_zero_production_not_finite :
    (Finance.run_finance_model zeroFinanceInputs).LCOM.isFinite = false ∧
    (Finance.run_finance_model zeroFinanceInputs).LCOM_meoh_capex.isFinite = false ∧
    (NaturalGeoH2FinanceModel.compute zeroGeoFinanceInputs).LCOH.isFinite = false := by
  have hz : zeroFinanceInputs.methanol_production.sum = 0 := by
    show (List.replicate 8760 (0 : ℚ)).sum = 0
    rw [List.sum_replicate]
    exact smul_zero 8760
  have hzg : zeroGeoFinanceInputs.hydrogen.sum = 0 := by
    show (List.replicate 8760 (0 : ℚ)).sum = 0
    rw [List.sum_replicate]
    exact smul_zero 8760
  exact ⟨(run_finance_model_zero_sum zeroFinanceInputs hz).1,
    (run_finance_model_zero_sum zeroFinanceInputs hz).2,
    geo_compute_zero_sum zeroGeoFinanceInputs hzg⟩

/-- C4 counterexample: with lng = 1615618.59 kg/yr and an
lng-to-methanol ratio of 1.61561859, run_performance_model returns
the annual total 1615618.59/1.61561859 = 1000000 kg/yr, not the
hourly value 1615618.59/1.61561859/8760, and the hourly 8760-sample
Performance model does not produce that hourly value either (its
samples come from plant capacity and capacity factor). -/
theorem smr_performance_scenario_refuted :
    gh_run_performance_model (161561859 / 100) (161561859 / 100000000) ≠
      161561859 / 100 / (161561859 / 100000000) / 8760 ∧
    (Performance.run_performance_model smrPerfSample).methanol_production ≠
      List.replicate 8760 (161561859 / 100 / (161561859 / 100000000) / 8760) := by
  constructor
  · norm_num [gh_run_performance_model]
  · intro hl
    rw [show (Performance.run_performance_model smrPerfSample).methanol_production =
      List.replicate 8760 ((100000000 : ℚ) * (85 / 100) / 8760) from rfl] at hl
    have h0 := (List.replicate_right_inj (by norm_num : (8760 : ℕ) ≠ 0)).mp hl
    norm_num at h0

/-- C4 (amended): with lng = 1615618.59 kg/yr and ratio 1.61561859
kg/kg, run_performance_model yields the annual methanol production
1000000 kg/yr as a single scalar, and the 8760-sample Performance
model computes every hourly sample as plant_capacity_kgpy *
capacity_factor / 8760, independent of the lng inputs. -/
theorem smr_performance_scenario :
    gh_run_performance_model (161561859 / 100) (161561859 / 100000000) = 1000000 ∧
    ∀ i : PerformanceInputs,
      (Performance.run_performance_model i).methanol_production =
        List.replicate 8760 (i.plant_capacity_kgpy * i.capacity_factor / 8760) :=
  ⟨by norm_num [gh_run_performance_model], fun i => rfl⟩

/-- C5 counterexample: the capital line item with coefficient 100,
exponent 0.6 and capacity 1000 is not inflation-adjusted by the CEPCI
ratio 596.2/708.8; that factor would change the value, since the item
cost is positive and the ratio is not 1. -/
theorem rosner_capital_scaling_cepci_refuted :
    rosnerCapitalItemCost 100 0.6 1000 ≠
      100 * (1000 : ℝ) ^ (0.6 : ℝ) * (596.2 / 708.8) := by
  have hx : (0 : ℝ) < (1000 : ℝ) ^ (0.6 : ℝ) :=
    Real.rpow_pos_of_pos (by norm_num) _
  unfold rosnerCapitalItemCost
  intro h
  have h2 : (100 * (1000 : ℝ) ^ (0.6 : ℝ)) * 1 =
      (100 * (1000 : ℝ) ^ (0.6 : ℝ)) * (596.2 / 708.8) := by
    rw [mul_one]
    exact h
  have h3 := mul_left_cancel₀
    (show (100 * (1000 : ℝ) ^ (0.6 : ℝ)) ≠ 0 by positivity) h2
  norm_num at h3

/-- C5 (amended): the capital line item with coefficient 100,
exponent 0.6 and capacity 1000 equals 100 * 1000 ** 0.6, which lies
strictly between 6309 and 6310 (approximately 6309.6); no CEPCI
factor is applied, the constants 596.2 and 708.8 being commented out
in the source. -/
theorem rosner_capital_scaling :
    rosnerCapitalItemCost 100 0.6 1000 = 100 * (1000 : ℝ) ^ (0.6 : ℝ) ∧
    (rosnerCapitalItemCost 100 0.6 1000) ^ (5 : ℕ) = 100 ^ 5 * 10 ^ 9 ∧
    6309 < rosnerCapitalItemCost 100 0.6 1000 ∧
    rosnerCapitalItemCost 100 0.6 1000 < 6310 := by
  have h0 : (0 : ℝ) ≤ 1000 := by norm_num
  have hr5 : ((1000 : ℝ) ^ (0.6 : ℝ)) ^ (5 : ℕ) = 10 ^ 9 := by
    rw [← Real.rpow_natCast ((1000 : ℝ) ^ (0.6 : ℝ)) 5, ← Real.rpow_mul h0]
    norm_num
  have hrpos : (0 : ℝ) < (1000 : ℝ) ^ (0.6 : ℝ) :=
    Real.rpow_pos_of_pos (by norm_num) _
  have hub : (1000 : ℝ) ^ (0.6 : ℝ) < 63.1 := by
    by_contra hc
    push_neg at hc
    have := pow_le_pow_left₀ (by norm_num : (0 : ℝ) ≤ 63.1) hc 5
    rw [hr5] at this
    norm_num at this
  have hlb : (63.09 : ℝ) < (1000 : ℝ) ^ (0.6 : ℝ) := by
    by_contra hc
    push_neg at hc
    have := pow_le_pow_left₀ (le_of_lt hrpos) hc 5
    rw [hr5] at this
    norm_num at this
  refine ⟨rfl, ?_, ?_, ?_⟩
  · show (100 * (1000 : ℝ) ^ (0.6 : ℝ)) ^ (5 : ℕ) = 100 ^ 5 * 10 ^ 9
    rw [mul_pow, hr5]
  · show (6309 : ℝ) < 100 * (1000 : ℝ) ^ (0.6 : ℝ)
    nlinarith [hlb]
  · show (100 : ℝ) * (1000 : ℝ) ^ (0.6 : ℝ) < 6310
    nlinarith [hub]

/-- C6: inflating a cost from year y1 to year y2 and back returns the
original cost exactly in rational arithmetic, for both the CPI and
the CEPCI functions, whenever both years are present in the index
table with nonzero index values (as in the real CPI/CEPCI tables). -/
theorem inflate_roundtrip
    (table : List (Int × ℚ)) (c : ℚ) (y1 y2 : Int) (i1 i2 : ℚ)
    (h1 : lookupYear table y1 = some i1) (h2 : lookupYear table y2 = some i2)
    (hz1 : i1 ≠ 0) (hz2 : i2 ≠ 0) :
    (inflate_cpi table c y1 y2).bind (fun c2 => inflate_cpi table c2 y2 y1) =
      Except.ok c ∧
    (inflate_cepci table c y1 y2).bind (fun c2 => inflate_cepci table c2 y2 y1) =
      Except.ok c := by
  have harith : c * (i2 / i1) * (i1 / i2) = c := by
    field_simp
  constructor
  · simp [inflate_cpi, h1, h2, Except.bind, harith]
  · simp [inflate_cepci, h1, h2, Except.bind, harith]

/-- Witness for C6 on a concrete two-year table. -/
theorem inflate_roundtrip_witness :
    lookupYear sampleIndexTable 2020 = some 100 ∧
    lookupYear sampleIndexTable 2024 = some 125 ∧
    (100 : ℚ) ≠ 0 ∧ (125 : ℚ) ≠ 0 ∧
    (inflate_cpi sampleIndexTable 8 2020 2024).bind
      (fun c2 => inflate_cpi sampleIndexTable c2 2024 2020) = Except.ok 8 := by
  refine ⟨by decide, by decide, by norm_num, by norm_num, ?_⟩
  exact (inflate_roundtrip sampleIndexTable 8 2020 2024 100 125 (by decide) (by decide)
    (by norm_num) (by norm_num)).1

/-- C7: the inflation adjustment returns c * index[target] /
index[source] when both years are present, and raises KeyError (a
LookupError) when either year is absent, for both the CPI and the
CEPCI functions. -/
theorem inflate_formula_and_lookup_error
    (table : List (Int × ℚ)) (c : ℚ) (sourceYear targetYear : Int) :
    (∀ iSrc iTgt, lookupYear table sourceYear = some iSrc →
      lookupYear table targetYear = some iTgt →
      inflate_cpi table c sourceYear targetYear = Except.ok (c * iTgt / iSrc) ∧
      inflate_cepci table c sourceYear targetYear = Except.ok (c * iTgt / iSrc)) ∧
    ((lookupYear table sourceYear = none ∨ lookupYear table targetYear = none) →
      inflate_cpi table c sourceYear targetYear = Except.error PyErr.keyError ∧
      inflate_cepci table c sourceYear targetYear = Except.error PyErr.keyError) := by
  constructor
  · intro iSrc iTgt hs ht
    have harith : c * (iTgt / iSrc) = c * iTgt / iSrc := by
      ring
    constructor
    · simp [inflate_cpi, hs, ht, harith]
    · simp [inflate_cepci, hs, ht, harith]
  · intro hmiss
    rcases hmiss with hs | ht
    · cases hty : lookupYear table targetYear with
      | none => exact ⟨by simp [inflate_cpi, hty], by simp [inflate_cepci, hty]⟩
      | some iTgt => exact ⟨by simp [inflate_cpi, hty, hs], by simp [inflate_cepci, hty, hs]⟩
    · exact ⟨by simp [inflate_cpi, ht], by simp [inflate_cepci, ht]⟩

/-- Witness for C7 on a concrete two-year table: the formula at
present years and the KeyError at an absent year. -/
theorem inflate_formula_and_lookup_error_witness :
    lookupYear sampleIndexTable 2020 = some 100 ∧
    lookupYear sampleIndexTable 2024 = some 125 ∧
    inflate_cpi sampleIndexTable 8 2020 2024 = Except.ok (8 * 125 / 100) ∧
    lookupYear sampleIndexTable 1999 = none ∧
    inflate_cepci sampleIndexTable 8 1999 2024 = Except.error PyErr.keyError := by
  refine ⟨by decide, by decide, ?_, by decide, ?_⟩
  · exact ((inflate_formula_and_lookup_error sampleIndexTable 8 2020 2024).1 100 125
      (by decide) (by decide)).1
  · exact ((inflate_formula_and_lookup_error sampleIndexTable 8 1999 2024).2
      (Or.inl (by decide))).2

